import Mathlib

/-!
Verification of the Express-MongoDB API Framework's request validation and
error-normalization pipeline, as a shallow embedding of the JavaScript
source into Lean.

Embedding conventions:
* JSON scalar values are modelled by `JsonVal`; JSON numbers are modelled as
  integers (the demonstration schema only exercises integral priorities, and
  no verified property depends on non-integral numerics).
* A parsed request body (the result of `express.json()` on an object payload)
  is an association list of field names to values.
* JavaScript in-place mutation is made explicit: a function that may mutate an
  object returns the object's new value alongside its ordinary result.
* The AJV validator instance is configured with
  `{ allErrors: true, coerceTypes: true, useDefaults: true }` (validation.js);
  the todo schema declares no defaults, so `useDefaults` has no effect and is
  not modelled.  Error texts follow `ajv.errorsText` for the three error kinds
  the todo schema can produce.
-/

namespace ExpressMongoApi

/-- JSON scalar values relevant to the todo schema, plus the BSON date the
server attaches at creation time (a BSON date is never produced by parsing a
JSON request body). -/
inductive JsonVal
  | str (s : String)
  | num (n : Int)
  | bool (b : Bool)
  | date (t : Nat)
deriving DecidableEq, Repr

/-- A parsed JSON object body: field names with their values, in order. -/
abbrev Body := List (String × JsonVal)

/-- Primitive type tags usable in the schema's `properties` map. -/
inductive FieldType
  | string
  | number
  | boolean
deriving DecidableEq, Repr

/-- Digit-string evaluation used by the numeric-coercion model. -/
def digitsVal? (cs : List Char) : Option Nat :=
  if cs = [] then none
  else if cs.all Char.isDigit then
    some (cs.foldl (fun a c => a * 10 + (c.toNat - 48)) 0)
  else none

/-- Decimal integer strings accepted by AJV's string-to-number coercion
(modelled over the integral JSON numbers used here). -/
def strToInt? (s : String) : Option Int :=
  match s.data with
  | '-' :: rest => (digitsVal? rest).map (fun n => -(n : Int))
  | cs => (digitsVal? cs).map (fun n => (n : Int))

/-- AJV type coercion (option `coerceTypes: true`): scalar values are coerced
to the declared type where the coercion rules allow; `none` means the value
fails the type check ("must be ...") for that declared type. -/
def coerce (t : FieldType) (v : JsonVal) : Option JsonVal :=
  match t, v with
  | .string, .str s => some (.str s)
  | .string, .num n => some (.str (toString n))
  | .string, .bool b => some (.str (if b then "true" else "false"))
  | .string, .date _ => none
  | .number, .num n => some (.num n)
  | .number, .str s => (strToInt? s).map JsonVal.num
  | .number, .bool b => some (.num (if b then 1 else 0))
  | .number, .date _ => none
  | .boolean, .bool b => some (.bool b)
  | .boolean, .str s =>
      if s == "true" then some (.bool true)
      else if s == "false" then some (.bool false)
      else none
  | .boolean, .num n =>
      if n == 1 then some (.bool true)
      else if n == 0 then some (.bool false)
      else none
  | .boolean, .date _ => none

/-- A JSON Schema descriptor of the shape used by `_todo_schema.js`:
`required` is an optional key (so that `delete schemaCopy.required` can be
modelled as setting it to `none`), `properties` maps declared field names to
type tags, and `additionalProperties: false` closes the property set. -/
structure Schema where
  required : Option (List String)
  properties : List (String × FieldType)
  additionalProperties : Bool
deriving DecidableEq, Repr

/-- The todo schema from `_todo_schema.js`. -/
def todoSchema : Schema :=
  { required := some ["task", "priority", "assigned_to", "is_complete"],
    properties := [("task", FieldType.string), ("priority", FieldType.number),
                   ("assigned_to", FieldType.string), ("is_complete", FieldType.boolean)],
    additionalProperties := false }

/-- The schema registry from `schema.js`: a static mapping from resource-type
name to schema descriptor. -/
def schemaRegistry : List (String × Schema) := [("todo", todoSchema)]

/-- Property lookup in a registry or property list (JS object key access). -/
def lookupSchema : List (String × Schema) → String → Option Schema
  | [], _ => none
  | (k, s) :: rest, name => if k == name then some s else lookupSchema rest name

/-- Lookup of a declared field's type tag in `schema.properties`. -/
def lookupType : List (String × FieldType) → String → Option FieldType
  | [], _ => none
  | (f, t) :: rest, g => if f == g then some t else lookupType rest g

/-- Deep clone of a schema descriptor, modelling
`JSON.parse(JSON.stringify(baseSchema))` in `getSchemaValidator`: the clone
has the same value as the original but is a fresh object, so later mutation
of the clone leaves the original untouched. -/
def deepClone (s : Schema) : Schema :=
  { required := s.required, properties := s.properties,
    additionalProperties := s.additionalProperties }

/-- Mode derivation inside `getSchemaValidator`: in "partial" mode the
`required` key is deleted from the (cloned) schema; every other mode value
leaves the schema as is ("strict" is the default). -/
def applyMode (mode : String) (s : Schema) : Schema :=
  if mode == "partial" then { s with required := none } else s

/-- The compile step of `getSchemaValidator` with the JS heap made explicit:
given the schema object currently stored in the registry, return the object
the registry holds afterwards (first component) together with the schema the
validator is compiled from (second component).  The source clones the stored
schema and applies the mode deletion to the clone, so the stored object is
returned unchanged; a variant that deleted on the original would return the
derived schema in both components. -/
def compileStep (stored : Schema) (mode : String) : Schema × Schema :=
  let schemaCopy := deepClone stored
  let derived := applyMode mode schemaCopy
  (stored, derived)

/-- The registry's stored schema object after a sequence of compile steps in
the given modes (each step may in principle mutate the stored object). -/
def registryAfter (stored : Schema) : List String → Schema
  | [] => stored
  | mode :: rest => registryAfter (compileStep stored mode).1 rest

/-- Validation errors that AJV can report for a schema of the todo shape. -/
inductive VError
  | missingRequired (f : String)
  | wrongType (f : String) (t : FieldType)
  | additionalProperty (f : String)
deriving DecidableEq, Repr

/-- Type-tag names as they appear in AJV messages. -/
def FieldType.typeName : FieldType → String
  | .string => "string"
  | .number => "number"
  | .boolean => "boolean"

/-- The per-error message text as rendered by `ajv.errorsText` (data variable
`data`, instance path for property-level errors). -/
def VError.text : VError → String
  | .missingRequired f => "data must have required property " ++ f
  | .wrongType f t => "data/" ++ f ++ " must be " ++ t.typeName
  | .additionalProperty _ => "data must NOT have additional properties"

/-- Rendering of a collected error list as one message, modelling
`ajv.errorsText(validate.errors)` (comma-separated; "No errors" when the
list is empty). -/
def errorsText : List VError → String
  | [] => "No errors"
  | [e] => e.text
  | e :: rest => e.text ++ ", " ++ errorsText rest

/-- One pass of the compiled checking function over the body's fields, with
`coerceTypes` and `allErrors`: each declared property is coerced to its
declared type in place where possible (a failed coercion records a type error
and leaves the value), and undeclared properties are flagged when the schema
is closed.  Returns the body as the validator leaves it, plus the collected
field errors. -/
def checkFields (sch : Schema) : Body → Body × List VError
  | [] => ([], [])
  | (f, v) :: rest =>
    let tail := checkFields sch rest
    match lookupType sch.properties f with
    | some t =>
      match coerce t v with
      | some v2 => ((f, v2) :: tail.1, tail.2)
      | none => ((f, v) :: tail.1, VError.wrongType f t :: tail.2)
    | none =>
      if sch.additionalProperties then ((f, v) :: tail.1, tail.2)
      else ((f, v) :: tail.1, VError.additionalProperty f :: tail.2)

/-- The schema's required-field list; a deleted `required` key enforces
nothing. -/
def requiredList (s : Schema) : List String := s.required.getD []

/-- Whether the body has a field of the given name. -/
def bodyHasKey (body : Body) (f : String) : Bool :=
  body.any (fun p => p.1 == f)

/-- Required-property errors: one per required field absent from the body. -/
def requiredErrors (sch : Schema) (body : Body) : List VError :=
  (requiredList sch).filterMap
    (fun f => if bodyHasKey body f then none else some (VError.missingRequired f))

/-- The compiled checking function, applied to a body: returns the body as
left by the in-place coercions together with all collected errors
(`allErrors: true`). -/
def runValidate (sch : Schema) (body : Body) : Body × List VError :=
  ((checkFields sch body).1, requiredErrors sch body ++ (checkFields sch body).2)

/-- Stack traces carried by error objects: a string for real JS errors, or
the literal empty array the production HTML branch assigns. -/
inductive StackTrace
  | str (s : String)
  | emptyArr
deriving DecidableEq, Repr

/-- An error object as seen by the central error handler: `status` is absent
for plain `Error`s, present for `http-errors` objects; the stack text itself
is abstracted (no verified property depends on its content). -/
structure ErrObj where
  status : Option Nat
  message : String
  stack : StackTrace
deriving DecidableEq, Repr

/-- Construction of an `http-errors` error: `createError(status, message)`. -/
def createError (status : Nat) (message : String) : ErrObj :=
  { status := some status, message := message, stack := StackTrace.str message }

/-- The request gate produced by `getSchemaValidator`: either the
unconditional unknown-schema rejection or a check against a compiled
schema. -/
inductive Gate
  | unknownSchema
  | check (compiled : Schema)
deriving DecidableEq, Repr

/-- getSchemaValidator (validation.js): unknown schema names yield a gate
that always signals 422; otherwise the registry schema is cloned, the mode
applied to the clone, and the result compiled once. -/
def getSchemaValidator (schemaType mode : String) : Gate :=
  match lookupSchema schemaRegistry schemaType with
  | none => Gate.unknownSchema
  | some base => Gate.check (compileStep base mode).2

/-- Running a gate on a request body, as the returned middleware does:
`validate(req.body)` coerces the body in place; on failure the middleware
calls `next(createError(422, ajv.errorsText(validate.errors)))`.  The first
component is the body as downstream handlers observe it. -/
def runGate : Gate → Body → Body × Option ErrObj
  | Gate.unknownSchema, body => (body, some (createError 422 "Unknown schema type"))
  | Gate.check sch, body =>
    let r := runValidate sch body
    (r.1, if r.2 = [] then none else some (createError 422 (errorsText r.2)))

/-- Hexadecimal digit test used by the ObjectId format checks. -/
def isHexChar (c : Char) : Bool :=
  c.isDigit || (97 ≤ c.toNat && c.toNat ≤ 102) || (65 ≤ c.toNat && c.toNat ≤ 70)

/-- bson's `ObjectId.isValid` on a string input: a 12-character string (taken
as 12 raw bytes) or a 24-character hexadecimal string. -/
def isValidObjectId (s : String) : Bool :=
  s.length == 12 || (s.length == 24 && s.data.all isHexChar)

/-- Lowercasing of an upper-case hex digit (ObjectId hex parsing is
case-insensitive; the canonical form is lowercase). -/
def hexLowerChar (c : Char) : Char :=
  if 65 ≤ c.toNat && c.toNat ≤ 70 then Char.ofNat (c.toNat + 32) else c

/-- Canonical lowercase form of a hex string. -/
def hexLower (s : String) : String := String.mk (s.data.map hexLowerChar)

/-- mongo_utils' `castObjectId`, i.e. `ObjectId.createFromHexString`: accepts
exactly 24-character hexadecimal strings and throws otherwise (`none`).  The
resulting ObjectId is represented by its canonical lowercase hex form, since
ObjectId equality is byte equality and hex parsing is case-insensitive. -/
def castObjectId (s : String) : Option String :=
  if s.length == 24 && s.data.all isHexChar then some (hexLower s) else none

/-- The error thrown by `ObjectId.createFromHexString` on a non-castable
input (a BSONError; it carries no HTTP status). -/
def bsonCastError : ErrObj :=
  { status := none,
    message := "input must be a 24 character hex string",
    stack := StackTrace.str "input must be a 24 character hex string" }

/-- The environment configuration fields read by the error path
(environment.js getters; `environment` defaults to "production"). -/
structure Env where
  serviceName : String
  environment : String
  useSSL : Bool
  serviceUrl : String
  httpPort : Nat
  httpsPort : Nat
deriving DecidableEq, Repr

/-- Parameters handed to the EJS error template by
`getErrorTemplateParams(err, req)` (error_utils.js): `status_code` is
`err.status`, which is absent for a plain `Error`. -/
structure TemplateParams where
  title : String
  status_code : Option Nat
  heading : String
  request : String
  message : String
  stack : StackTrace
deriving DecidableEq, Repr

/-- getErrorTemplateParams: reconstructs the request URL from configuration
(scheme, host and port from `env`), not from client-supplied headers. -/
def getErrorTemplateParams (err : ErrObj) (env : Env) (method originalUrl : String) :
    TemplateParams :=
  { title := env.serviceName ++ " - Error",
    status_code := err.status,
    heading := env.serviceName ++ " - Error",
    request := method ++ " " ++ (if env.useSSL then "https" else "http") ++ "://"
      ++ env.serviceUrl ++ ":"
      ++ toString (if env.useSSL then env.httpsPort else env.httpPort) ++ originalUrl,
    message := err.message,
    stack := err.stack }

/-- Response bodies the application can produce, by shape. -/
inductive RespBody
  | statusText (s : String)
  | flatJson (field : String) (value : String)
  | envelope (message : String) (stack : Option StackTrace)
  | htmlPage (p : TemplateParams)
  | jsonDoc (oid : String) (fields : Body)
  | jsonDocs (ds : List (String × Body))
deriving DecidableEq, Repr

/-- An HTTP response: status code and body shape. -/
structure Response where
  status : Nat
  body : RespBody
deriving DecidableEq, Repr

/-- Express status-message texts for the codes this application sends via
`res.sendStatus`. -/
def statusMessage (n : Nat) : String :=
  if n == 200 then "OK"
  else if n == 204 then "No Content"
  else if n == 503 then "Service Unavailable"
  else ""

/-- res.sendStatus(n): sets the status and sends the status message text. -/
def sendStatus (n : Nat) : Response :=
  { status := n, body := RespBody.statusText (statusMessage n) }

/-- The `err.status || 500` idiom: a missing status (or the falsy 0) becomes
500. -/
def statusOr500 : Option Nat → Nat
  | none => 500
  | some s => if s == 0 then 500 else s

/-- The central error handler (app.js lines 124-145): a JSON-accepting client
gets `{ error: { message, stack? } }` with the stack included only when the
Express app env (`req.app.get("env")`, from NODE_ENV) is "development";
otherwise an EJS error page is rendered, from the real error in a
"development" configured environment and from a generic error (message
"Your request is in error.", stack set to the empty array) otherwise. -/
def centralErrorHandler (err : ErrObj) (acceptsJson : Bool) (appEnv : String)
    (env : Env) (method originalUrl : String) : Response :=
  if acceptsJson then
    { status := statusOr500 err.status,
      body := RespBody.envelope err.message
        (if appEnv == "development" then some err.stack else none) }
  else
    let e := if env.environment == "development" then err
      else { status := none, message := "Your request is in error.",
             stack := StackTrace.emptyArr }
    { status := statusOr500 err.status,
      body := RespBody.htmlPage (getErrorTemplateParams e env method originalUrl) }

/-- A document in the `todos` collection: its ObjectId (canonical lowercase
hex) and its fields in stored order. -/
structure TodoDoc where
  oid : String
  fields : Body
deriving DecidableEq, Repr

/-- The `todos` collection contents, in insertion order. -/
abbrev Store := List TodoDoc

/-- findOne({_id: oid}): the first (unique) document with the given id. -/
def findOne : Store → String → Option TodoDoc
  | [], _ => none
  | d :: ds, oid => if d.oid == oid then some d else findOne ds oid

/-- JS property assignment `obj[k] = v` (also `$set` on a single field): an
existing key is overwritten in place, a new key is appended. -/
def setField : Body → String → JsonVal → Body
  | [], k, v => [(k, v)]
  | (k0, v0) :: fs, k, v =>
    if k0 == k then (k, v) :: fs else (k0, v0) :: setField fs k v

/-- MongoDB `$set` with an update document: each update field applied in
order. -/
def setFields : Body → Body → Body
  | fields, [] => fields
  | fields, (k, v) :: rest => setFields (setField fields k v) rest

/-- Application of a non-empty `$set` update document to the collection:
returns the collection afterwards and whether `modifiedCount > 0` — the
matched document counts as modified only if applying `$set` actually
changed it (TodoDemoModule.update returns `result.modifiedCount > 0`). -/
def applySet (store : Store) (oid : String) (update : Body) : Store × Bool :=
  match store with
  | [] => ([], false)
  | d :: ds =>
    if d.oid == oid then
      let newFields := setFields d.fields update
      (⟨d.oid, newFields⟩ :: ds, decide (newFields ≠ d.fields))
    else
      let tail := applySet ds oid update
      (d :: tail.1, tail.2)

/-- The error MongoDB raises when an update carries an empty `$set` document
(FailedToParse, raised while parsing the update document, before any match
is attempted; its exact server message is abstracted here).  It carries no
HTTP status. -/
def emptySetError : ErrObj :=
  { status := none,
    message := "FailedToParse: $set is empty",
    stack := StackTrace.str "FailedToParse: $set is empty" }

/-- updateOne({_id: oid}, {$set: update}): an empty update document is
rejected by MongoDB with the FailedToParse error (`none`) regardless of the
collection contents; otherwise the `$set` is applied and the call returns
the collection afterwards and whether `modifiedCount > 0`. -/
def updateOne (store : Store) (oid : String) (update : Body) :
    Option (Store × Bool) :=
  if update = [] then none else some (applySet store oid update)

/-- deleteOne({_id: oid}): returns the collection afterwards and whether
`deletedCount > 0`. -/
def deleteOne (store : Store) (oid : String) : Store × Bool :=
  match store with
  | [] => ([], false)
  | d :: ds =>
    if d.oid == oid then (ds, true)
    else
      let tail := deleteOne ds oid
      (d :: tail.1, tail.2)

/-- TodoDemoModule.create: sets `todo.date_created = new Date()` on the
incoming body (overwriting any existing value in place), inserts the
document, and returns `{_id: result.insertedId, ...todo}`.  `now` is the
clock reading and `oid` the ObjectId MongoDB assigns to the insert. -/
def createTodo (store : Store) (todo : Body) (now : Nat) (oid : String) :
    Store × TodoDoc :=
  let todo2 := setField todo "date_created" (JsonVal.date now)
  (store ++ [⟨oid, todo2⟩], ⟨oid, todo2⟩)

/-- The authenticated identity attached by the stub middleware. -/
structure Identity where
  id : String
  username : String
  roles : List String
deriving DecidableEq, Repr

/-- The fixed placeholder identity of authenticate_user.js. -/
def stubIdentity : Identity :=
  { id := "placeholder-user-id", username := "stub_user", roles := ["user"] }

/-- The request state the modelled middleware chain threads along. -/
structure Request where
  params_id : Option String
  body : Body
  user : Option Identity
deriving DecidableEq, Repr

/-- What a middleware does with a request: pass control on, or answer it. -/
inductive MwOutcome
  | next
  | respond (resp : Response)
deriving DecidableEq, Repr

/-- authenticate_user (stub): attaches the fixed placeholder identity to
`req.user`, logs, and always calls `next()`; the 401 rejection in the source
is commented out. -/
def authenticate_user (req : Request) : Request × MwOutcome :=
  ({ req with user := some stubIdentity }, MwOutcome.next)

/-- The pipeline stages of a todo route, for sequencing statements. -/
inductive Stage
  | paramCheck
  | auth
  | validator
  | handler
deriving DecidableEq, Repr

/-- The `app.param("id")` gate, `validateObjectIdParamHandler`
(mongo_utils.js): an invalid value is answered directly with
`res.status(400).json({ error: "Invalid ObjectId" })`; a valid one passes
control on.  Express runs this before any of the route's own middleware. -/
def validateObjectIdParamHandler (value : String) : MwOutcome :=
  if isValidObjectId value then MwOutcome.next
  else MwOutcome.respond { status := 400, body := RespBody.flatJson "error" "Invalid ObjectId" }

/-- GET /v1/todo/:id — param check, stub auth, then the handler: findOne by
the cast id; a missing document goes to the central handler as
`createError(404, "Todo not found")`, a thrown cast error as a plain error.
Returns the response and the stages that ran. -/
def getTodoByIdPipeline (store : Store) (id : String) (acceptsJson : Bool)
    (appEnv : String) (env : Env) : Response × List Stage :=
  match validateObjectIdParamHandler id with
  | MwOutcome.respond r => (r, [Stage.paramCheck])
  | MwOutcome.next =>
    match castObjectId id with
    | none =>
      (centralErrorHandler bsonCastError acceptsJson appEnv env "GET" ("/v1/todo/" ++ id),
       [Stage.paramCheck, Stage.auth, Stage.handler])
    | some oid =>
      match findOne store oid with
      | none =>
        (centralErrorHandler (createError 404 "Todo not found") acceptsJson appEnv env
           "GET" ("/v1/todo/" ++ id),
         [Stage.paramCheck, Stage.auth, Stage.handler])
      | some d =>
        ({ status := 200, body := RespBody.jsonDoc d.oid d.fields },
         [Stage.paramCheck, Stage.auth, Stage.handler])

/-- POST /v1/todo — stub auth, strict-mode schema gate, then the handler:
create and answer 201 with the created document; a gate failure goes to the
central handler.  `now` and `newOid` are the creation timestamp and the
ObjectId assigned by the insert.  Returns the response, the collection
afterwards, and the stages that ran. -/
def postTodoPipeline (store : Store) (body : Body) (now : Nat) (newOid : String)
    (acceptsJson : Bool) (appEnv : String) (env : Env) :
    Response × Store × List Stage :=
  let authed := authenticate_user { params_id := none, body := body, user := none }
  match runGate (getSchemaValidator "todo" "strict") authed.1.body with
  | (_, some e) =>
    (centralErrorHandler e acceptsJson appEnv env "POST" "/v1/todo",
     store, [Stage.auth, Stage.validator])
  | (body2, none) =>
    let created := createTodo store body2 now newOid
    ({ status := 201, body := RespBody.jsonDoc created.2.oid created.2.fields },
     created.1, [Stage.auth, Stage.validator, Stage.handler])

/-- PUT /v1/todo/:id — param check, stub auth, partial-mode schema gate, then
the handler: updateOne by the cast id; `modifiedCount > 0` answers 204, else
the central handler renders `createError(404, "Todo not found or not
modified")`; a thrown cast error, or the FailedToParse error MongoDB raises
for an empty `$set` update document, reaches the central handler as a plain
error via the route's catch.  Returns the response, the collection
afterwards, and the stages that ran. -/
def putTodoPipeline (store : Store) (id : String) (body : Body)
    (acceptsJson : Bool) (appEnv : String) (env : Env) :
    Response × Store × List Stage :=
  match validateObjectIdParamHandler id with
  | MwOutcome.respond r => (r, store, [Stage.paramCheck])
  | MwOutcome.next =>
    let authed := authenticate_user { params_id := some id, body := body, user := none }
    match runGate (getSchemaValidator "todo" "partial") authed.1.body with
    | (_, some e) =>
      (centralErrorHandler e acceptsJson appEnv env "PUT" ("/v1/todo/" ++ id),
       store, [Stage.paramCheck, Stage.auth, Stage.validator])
    | (body2, none) =>
      match castObjectId id with
      | none =>
        (centralErrorHandler bsonCastError acceptsJson appEnv env "PUT" ("/v1/todo/" ++ id),
         store, [Stage.paramCheck, Stage.auth, Stage.validator, Stage.handler])
      | some oid =>
        match updateOne store oid body2 with
        | none =>
          (centralErrorHandler emptySetError acceptsJson appEnv env "PUT"
             ("/v1/todo/" ++ id),
           store, [Stage.paramCheck, Stage.auth, Stage.validator, Stage.handler])
        | some updated =>
          if updated.2 then
            (sendStatus 204, updated.1,
             [Stage.paramCheck, Stage.auth, Stage.validator, Stage.handler])
          else
            (centralErrorHandler (createError 404 "Todo not found or not modified")
               acceptsJson appEnv env "PUT" ("/v1/todo/" ++ id),
             updated.1, [Stage.paramCheck, Stage.auth, Stage.validator, Stage.handler])

/-- DELETE /v1/todo/:id — param check, stub auth, then the handler: deleteOne
by the cast id; a successful delete answers 204, a miss goes to the central
handler as `createError(404, "Todo not found")`, a thrown cast error as a
plain error. -/
def deleteTodoPipeline (store : Store) (id : String) (acceptsJson : Bool)
    (appEnv : String) (env : Env) : Response × Store × List Stage :=
  match validateObjectIdParamHandler id with
  | MwOutcome.respond r => (r, store, [Stage.paramCheck])
  | MwOutcome.next =>
    match castObjectId id with
    | none =>
      (centralErrorHandler bsonCastError acceptsJson appEnv env "DELETE" ("/v1/todo/" ++ id),
       store, [Stage.paramCheck, Stage.auth, Stage.handler])
    | some oid =>
      let deleted := deleteOne store oid
      if deleted.2 then
        (sendStatus 204, deleted.1, [Stage.paramCheck, Stage.auth, Stage.handler])
      else
        (centralErrorHandler (createError 404 "Todo not found") acceptsJson appEnv env
           "DELETE" ("/v1/todo/" ++ id),
         deleted.1, [Stage.paramCheck, Stage.auth, Stage.handler])

/-- GET /v1/health_check (diagnostic_routes_index.js): answers
`res.sendStatus(200)` when the store responds to a ping and
`res.sendStatus(503)` when the ping throws — directly in the route, without
going through the central error handler. -/
def healthCheckRoute (dbReachable : Bool) : Response :=
  if dbReachable then sendStatus 200 else sendStatus 503

/-- Exact type match between a declared type tag and a value (no coercion
needed). -/
def typeMatches (t : FieldType) (v : JsonVal) : Bool :=
  match t, v with
  | FieldType.string, JsonVal.str _ => true
  | FieldType.number, JsonVal.num _ => true
  | FieldType.boolean, JsonVal.bool _ => true
  | _, _ => false

/-- Specification-side description of what the validator does to one body
field: a declared field is replaced by its coerced value when coercion
succeeds, and everything else is left alone. -/
def coerceField (props : List (String × FieldType)) (p : String × JsonVal) :
    String × JsonVal :=
  match lookupType props p.1 with
  | some t =>
    match coerce t p.2 with
    | some v2 => (p.1, v2)
    | none => p
  | none => p

/-- A body field that passes the per-field checks of a schema: declared, and
of a coercible type. -/
def fieldOk (sch : Schema) (p : String × JsonVal) : Bool :=
  match lookupType sch.properties p.1 with
  | some t => (coerce t p.2).isSome
  | none => false

/-- A body field already carrying exactly its declared type under the todo
schema (so coercion leaves it unchanged). -/
def wellTypedField (p : String × JsonVal) : Bool :=
  match lookupType todoSchema.properties p.1 with
  | some t => typeMatches t p.2
  | none => false

/-- The message `hay` mentions `pat`: `pat` occurs contiguously in `hay`. -/
def strMentions (hay pat : String) : Prop :=
  ∃ s t : List Char, hay.data = s ++ pat.data ++ t

/-- Whether a response body has the canonical JSON error-envelope shape
`{ error: { message, stack? } }` produced by the central error handler. -/
def RespBody.isEnvelope : RespBody → Bool
  | RespBody.envelope _ _ => true
  | _ => false

/-- An environment configuration with all defaults except a "test"
NODE_ENV, as the test suite runs. -/
def testEnv : Env :=
  { serviceName := "API", environment := "test", useSSL := false,
    serviceUrl := "", httpPort := 3000, httpsPort := 4443 }

/-! Helper lemmas. -/

theorem data_append (s t : String) : (s ++ t).data = s.data ++ t.data := rfl

theorem strMentions_refl (s : String) : strMentions s s :=
  ⟨[], [], by simp⟩

theorem strMentions_append_left {a pat : String} (b : String)
    (h : strMentions a pat) : strMentions (a ++ b) pat := by
  obtain ⟨s, t, hst⟩ := h
  exact ⟨s, t ++ b.data, by rw [data_append, hst]; simp⟩

theorem strMentions_append_right {b pat : String} (a : String)
    (h : strMentions b pat) : strMentions (a ++ b) pat := by
  obtain ⟨s, t, hst⟩ := h
  exact ⟨a.data ++ s, t, by rw [data_append, hst]; simp⟩

theorem errorsText_mentions {errs : List VError} {e : VError} (h : e ∈ errs) :
    strMentions (errorsText errs) e.text := by
  induction errs with
  | nil => cases h
  | cons e0 rest ih =>
    cases rest with
    | nil =>
      rcases List.mem_singleton.mp h with rfl
      exact strMentions_refl _
    | cons e1 rest1 =>
      have hunfold : errorsText (e0 :: e1 :: rest1)
          = e0.text ++ ", " ++ errorsText (e1 :: rest1) := rfl
      rw [hunfold]
      rcases List.mem_cons.mp h with rfl | htail
      · exact strMentions_append_left _ (strMentions_append_left _ (strMentions_refl _))
      · exact strMentions_append_right _ (ih htail)

theorem deepClone_eq (s : Schema) : deepClone s = s := rfl

theorem applyMode_properties (mode : String) (s : Schema) :
    (applyMode mode s).properties = s.properties := by
  unfold applyMode; split <;> rfl

theorem applyMode_additionalProperties (mode : String) (s : Schema) :
    (applyMode mode s).additionalProperties = s.additionalProperties := by
  unfold applyMode; split <;> rfl

theorem applyMode_strict (s : Schema) : applyMode "strict" s = s := rfl

theorem applyMode_partial_required (s : Schema) :
    (applyMode "partial" s).required = none := rfl

theorem compileStep_fst (stored : Schema) (mode : String) :
    (compileStep stored mode).1 = stored := rfl

theorem compileStep_snd (stored : Schema) (mode : String) :
    (compileStep stored mode).2 = applyMode mode stored := by
  unfold compileStep deepClone
  rfl

theorem registryAfter_eq (s : Schema) (modes : List String) :
    registryAfter s modes = s := by
  induction modes with
  | nil => rfl
  | cons m ms ih => simpa [registryAfter, compileStep_fst] using ih

theorem getSchemaValidator_todo (mode : String) :
    getSchemaValidator "todo" mode = Gate.check (applyMode mode todoSchema) := by
  unfold getSchemaValidator lookupSchema schemaRegistry
  simp [compileStep_snd]

theorem checkFields_fst (sch : Schema) (body : Body) :
    (checkFields sch body).1 = body.map (coerceField sch.properties) := by
  induction body with
  | nil => rfl
  | cons p rest ih =>
    obtain ⟨f, v⟩ := p
    have hmap : List.map (coerceField sch.properties) ((f, v) :: rest)
        = coerceField sch.properties (f, v) :: List.map (coerceField sch.properties) rest := rfl
    rw [hmap, ← ih]
    cases hl : lookupType sch.properties f with
    | none =>
      have hcf : coerceField sch.properties (f, v) = (f, v) := by
        simp [coerceField, hl]
      cases hap : sch.additionalProperties <;> simp [checkFields, hl, hap, hcf]
    | some t =>
      cases hc : coerce t v with
      | none =>
        have hcf : coerceField sch.properties (f, v) = (f, v) := by
          simp [coerceField, hl, hc]
        simp [checkFields, hl, hc, hcf]
      | some v2 =>
        have hcf : coerceField sch.properties (f, v) = (f, v2) := by
          simp [coerceField, hl, hc]
        simp [checkFields, hl, hc, hcf]

theorem checkFields_mem_additional {sch : Schema} {body : Body} {f : String}
    {v : JsonVal} (hap : sch.additionalProperties = false)
    (hmem : (f, v) ∈ body) (hundecl : lookupType sch.properties f = none) :
    VError.additionalProperty f ∈ (checkFields sch body).2 := by
  induction body with
  | nil => cases hmem
  | cons p rest ih =>
    obtain ⟨g, w⟩ := p
    unfold checkFields
    rcases List.mem_cons.mp hmem with heq | htail
    · obtain ⟨rfl, rfl⟩ := Prod.mk.injEq .. ▸ heq
      simp [hundecl, hap]
    · cases hl : lookupType sch.properties g with
      | none => simp [hl, hap, ih htail]
      | some t => cases hc : coerce t w <;> simp [hl, hc, ih htail]

theorem checkFields_mem_wrongType {sch : Schema} {body : Body} {f : String}
    {v : JsonVal} {t : FieldType} (hmem : (f, v) ∈ body)
    (hdecl : lookupType sch.properties f = some t) (hc : coerce t v = none) :
    VError.wrongType f t ∈ (checkFields sch body).2 := by
  induction body with
  | nil => cases hmem
  | cons p rest ih =>
    obtain ⟨g, w⟩ := p
    unfold checkFields
    rcases List.mem_cons.mp hmem with heq | htail
    · obtain ⟨rfl, rfl⟩ := Prod.mk.injEq .. ▸ heq
      simp [hdecl, hc]
    · cases hl : lookupType sch.properties g with
      | none => cases hap : sch.additionalProperties <;> simp [hl, hap, ih htail]
      | some t2 => cases hc2 : coerce t2 w <;> simp [hl, hc2, ih htail]

theorem checkFields_ok {sch : Schema} {body : Body}
    (h : ∀ p ∈ body, fieldOk sch p = true) :
    (checkFields sch body).2 = [] := by
  induction body with
  | nil => rfl
  | cons p rest ih =>
    obtain ⟨f, v⟩ := p
    have hp := h (f, v) (List.mem_cons_self ..)
    have hrest := ih (fun q hq => h q (List.mem_cons_of_mem _ hq))
    cases hl : lookupType sch.properties f with
    | none =>
      exfalso
      simp [fieldOk, hl] at hp
    | some t =>
      have hps : (coerce t v).isSome = true := by simpa [fieldOk, hl] using hp
      cases hc : coerce t v with
      | none => rw [hc] at hps; cases hps
      | some v2 => simp [checkFields, hl, hc, hrest]

theorem requiredErrors_none {sch : Schema} (body : Body)
    (h : sch.required = none) : requiredErrors sch body = [] := by
  simp [requiredErrors, requiredList, h]

theorem requiredErrors_mem {sch : Schema} {body : Body} {f : String}
    (hreq : f ∈ requiredList sch) (habsent : bodyHasKey body f = false) :
    VError.missingRequired f ∈ requiredErrors sch body := by
  unfold requiredErrors
  exact List.mem_filterMap.mpr ⟨f, hreq, by simp [habsent]⟩

theorem runGate_check_fst (sch : Schema) (body : Body) :
    (runGate (Gate.check sch) body).1 = (checkFields sch body).1 := rfl

theorem runGate_check_none_iff (sch : Schema) (body : Body) :
    (runGate (Gate.check sch) body).2 = none ↔ (runValidate sch body).2 = [] := by
  unfold runGate
  split <;> simp_all

theorem runGate_check_snd_of_mem {sch : Schema} {body : Body} {e : VError}
    (h : e ∈ (runValidate sch body).2) :
    (runGate (Gate.check sch) body).2
      = some (createError 422 (errorsText (runValidate sch body).2)) := by
  have hne : (runValidate sch body).2 ≠ [] := fun hnil => by rw [hnil] at h; cases h
  simp only [runGate]
  rw [if_neg hne]

theorem runValidate_mem_check {sch : Schema} {body : Body} {e : VError}
    (h : e ∈ (checkFields sch body).2) : e ∈ (runValidate sch body).2 :=
  List.mem_append_right _ h

theorem runValidate_mem_required {sch : Schema} {body : Body} {e : VError}
    (h : e ∈ requiredErrors sch body) : e ∈ (runValidate sch body).2 :=
  List.mem_append_left _ h

theorem castObjectId_isValid {s oid : String} (h : castObjectId s = some oid) :
    isValidObjectId s = true := by
  unfold castObjectId at h
  unfold isValidObjectId
  by_cases hc : (s.length == 24 && s.data.all isHexChar) = true
  · rw [hc, Bool.or_true]
  · rw [if_neg (by simpa using hc)] at h
    cases h

theorem gate_success_no_undeclared {body : Body} {mode : String}
    (hval : (runGate (getSchemaValidator "todo" mode) body).2 = none) :
    ∀ f v, (f, v) ∈ body → lookupType todoSchema.properties f ≠ none := by
  intro f v hmem hundecl
  rw [getSchemaValidator_todo] at hval
  have hmem2 : VError.additionalProperty f
      ∈ (checkFields (applyMode mode todoSchema) body).2 :=
    checkFields_mem_additional
      (by rw [applyMode_additionalProperties]; rfl)
      hmem
      (by rw [applyMode_properties]; exact hundecl)
  have hnil := (runGate_check_none_iff _ _).mp hval
  have hmem3 := runValidate_mem_check hmem2
  rw [hnil] at hmem3
  cases hmem3

theorem gate_success_no_date_created {body : Body} {mode : String}
    (hval : (runGate (getSchemaValidator "todo" mode) body).2 = none) :
    bodyHasKey body "date_created" = false := by
  by_contra hk
  have hk2 : bodyHasKey body "date_created" = true := by
    cases hb : bodyHasKey body "date_created"
    · exact absurd hb hk
    · rfl
  have hk3 : body.any (fun p => p.1 == "date_created") = true := hk2
  obtain ⟨p, hmem, hf⟩ := List.any_eq_true.mp hk3
  obtain ⟨f, v⟩ := p
  have hfeq : f = "date_created" := by simpa using hf
  exact gate_success_no_undeclared hval f v hmem (by rw [hfeq]; decide)

theorem wellTyped_coerce {t : FieldType} {v : JsonVal}
    (h : typeMatches t v = true) : coerce t v = some v := by
  cases t <;> cases v <;> first | rfl | cases h

theorem wellTyped_map_id {body : Body}
    (h : ∀ p ∈ body, wellTypedField p = true) :
    body.map (coerceField todoSchema.properties) = body := by
  induction body with
  | nil => rfl
  | cons p rest ih =>
    obtain ⟨f, v⟩ := p
    have hp := h (f, v) (List.mem_cons_self ..)
    have hrest := ih (fun q hq => h q (List.mem_cons_of_mem _ hq))
    cases hl : lookupType todoSchema.properties f with
    | none =>
      exfalso
      simp [wellTypedField, hl] at hp
    | some t =>
      have htm : typeMatches t v = true := by simpa [wellTypedField, hl] using hp
      have hcf : coerceField todoSchema.properties (f, v) = (f, v) := by
        simp [coerceField, hl, wellTyped_coerce htm]
      simp [hcf, hrest]

theorem setField_append {fields : Body} {k : String} (v : JsonVal)
    (h : bodyHasKey fields k = false) :
    setField fields k v = fields ++ [(k, v)] := by
  induction fields with
  | nil => rfl
  | cons p rest ih =>
    obtain ⟨k0, v0⟩ := p
    have hne : (k0 == k) = false := by
      cases hb : (k0 == k)
      · rfl
      · exfalso
        rw [show bodyHasKey ((k0, v0) :: rest) k
              = ((k0 == k) || bodyHasKey rest k) from rfl, hb] at h
        cases h
    have hrest : bodyHasKey rest k = false := by
      rw [show bodyHasKey ((k0, v0) :: rest) k
            = ((k0 == k) || bodyHasKey rest k) from rfl, hne] at h
      simpa using h
    simp [setField, hne, ih hrest]

theorem findOne_append_fresh {store : Store} {oid : String} (d : TodoDoc)
    (hfresh : findOne store oid = none) (hd : d.oid = oid) :
    findOne (store ++ [d]) oid = some d := by
  induction store with
  | nil =>
    simp [findOne, hd]
  | cons x rest ih =>
    unfold findOne at hfresh ⊢
    cases hx : (x.oid == oid) with
    | true => rw [hx] at hfresh; simp at hfresh
    | false =>
      rw [hx] at hfresh
      simpa [hx] using ih hfresh

theorem centralErrorHandler_json_body (err : ErrObj) (appEnv : String)
    (env : Env) (method originalUrl : String) :
    (centralErrorHandler err true appEnv env method originalUrl).body
      = RespBody.envelope err.message
          (if appEnv == "development" then some err.stack else none) := rfl

theorem centralErrorHandler_json_isEnvelope (err : ErrObj) (appEnv : String)
    (env : Env) (method originalUrl : String) :
    (centralErrorHandler err true appEnv env method originalUrl).body.isEnvelope
      = true := by
  rw [centralErrorHandler_json_body]
  rfl

theorem centralErrorHandler_status (err : ErrObj) (acceptsJson : Bool)
    (appEnv : String) (env : Env) (method originalUrl : String) :
    (centralErrorHandler err acceptsJson appEnv env method originalUrl).status
      = statusOr500 err.status := by
  unfold centralErrorHandler
  split <;> rfl

theorem putPipeline_invalid {store : Store} {id : String} {body : Body}
    {aj : Bool} {appEnv : String} {env : Env} (h : isValidObjectId id = false) :
    putTodoPipeline store id body aj appEnv env
      = ({ status := 400, body := RespBody.flatJson "error" "Invalid ObjectId" },
         store, [Stage.paramCheck]) := by
  simp [putTodoPipeline, validateObjectIdParamHandler, h]

theorem getPipeline_invalid {store : Store} {id : String} {aj : Bool}
    {appEnv : String} {env : Env} (h : isValidObjectId id = false) :
    getTodoByIdPipeline store id aj appEnv env
      = ({ status := 400, body := RespBody.flatJson "error" "Invalid ObjectId" },
         [Stage.paramCheck]) := by
  simp [getTodoByIdPipeline, validateObjectIdParamHandler, h]

theorem deletePipeline_invalid {store : Store} {id : String} {aj : Bool}
    {appEnv : String} {env : Env} (h : isValidObjectId id = false) :
    deleteTodoPipeline store id aj appEnv env
      = ({ status := 400, body := RespBody.flatJson "error" "Invalid ObjectId" },
         store, [Stage.paramCheck]) := by
  simp [deleteTodoPipeline, validateObjectIdParamHandler, h]

theorem putPipeline_gate_ok {store : Store} {id : String} {body : Body}
    {aj : Bool} {appEnv : String} {env : Env} {oid : String} {b2 : Body}
    {upd : Store × Bool}
    (hcast : castObjectId id = some oid)
    (hrg : runGate (getSchemaValidator "todo" "partial") body = (b2, none))
    (hupd : updateOne store oid b2 = some upd) :
    putTodoPipeline store id body aj appEnv env
      = (if upd.2 then
           (sendStatus 204, upd.1,
            [Stage.paramCheck, Stage.auth, Stage.validator, Stage.handler])
         else
           (centralErrorHandler (createError 404 "Todo not found or not modified")
              aj appEnv env "PUT" ("/v1/todo/" ++ id),
            upd.1,
            [Stage.paramCheck, Stage.auth, Stage.validator, Stage.handler])) := by
  have hvid := castObjectId_isValid hcast
  simp only [putTodoPipeline, validateObjectIdParamHandler, hvid, if_true,
    authenticate_user, hrg, hcast, hupd]

theorem putPipeline_empty_set {store : Store} {id : String} {body : Body}
    {aj : Bool} {appEnv : String} {env : Env} {oid : String} {b2 : Body}
    (hcast : castObjectId id = some oid)
    (hrg : runGate (getSchemaValidator "todo" "partial") body = (b2, none))
    (hupd : updateOne store oid b2 = none) :
    putTodoPipeline store id body aj appEnv env
      = (centralErrorHandler emptySetError aj appEnv env "PUT"
           ("/v1/todo/" ++ id),
         store, [Stage.paramCheck, Stage.auth, Stage.validator, Stage.handler]) := by
  have hvid := castObjectId_isValid hcast
  simp only [putTodoPipeline, validateObjectIdParamHandler, hvid, if_true,
    authenticate_user, hrg, hcast, hupd]

theorem gate_wellTyped_body {body : Body} (mode : String)
    (htyped : ∀ p ∈ body, wellTypedField p = true) :
    (runGate (getSchemaValidator "todo" mode) body).1 = body := by
  rw [getSchemaValidator_todo, runGate_check_fst, checkFields_fst,
    applyMode_properties]
  exact wellTyped_map_id htyped

/-! Claim theorems. -/

/-- C1: every payload containing a field outside the todo schema's declared
property set {task, priority, assigned_to, is_complete} fails validation
with a 422 error whose message names additional properties, in every mode —
in particular "strict" and "partial" alike — because mode derivation only
ever removes the required-fields constraint and leaves
`additionalProperties: false` in force. -/
theorem claim_C1_closed_properties (mode : String) (body : Body) (f : String)
    (v : JsonVal) (hmem : (f, v) ∈ body)
    (hundecl : lookupType todoSchema.properties f = none) :
    ∃ e : ErrObj, (runGate (getSchemaValidator "todo" mode) body).2 = some e ∧
      e.status = some 422 ∧
      strMentions e.message "data must NOT have additional properties" := by
  rw [getSchemaValidator_todo]
  have hmem2 : VError.additionalProperty f
      ∈ (checkFields (applyMode mode todoSchema) body).2 :=
    checkFields_mem_additional
      (by rw [applyMode_additionalProperties]; rfl)
      hmem (by rw [applyMode_properties]; exact hundecl)
  have hmem3 := runValidate_mem_check hmem2
  refine ⟨_, runGate_check_snd_of_mem hmem3, rfl, ?_⟩
  simpa using errorsText_mentions hmem3

/-- Witness for C1: the partial-mode update payload
`{is_complete: true, whoops: 1}` is rejected 422 naming additional
properties. -/
theorem claim_C1_closed_properties_witness :
    ∃ e : ErrObj,
      (runGate (getSchemaValidator "todo" "partial")
        [("is_complete", JsonVal.bool true), ("whoops", JsonVal.num 1)]).2 = some e ∧
      e.status = some 422 ∧
      strMentions e.message "data must NOT have additional properties" :=
  claim_C1_closed_properties "partial"
    [("is_complete", JsonVal.bool true), ("whoops", JsonVal.num 1)]
    "whoops" (JsonVal.num 1) (by decide) (by decide)

/-- C2 counterexample: the claim that a failing validation leaves the
request body unchanged is false.  On the strict-mode payload
`{task: "x", priority: "5", assigned_to: "a", is_complete: false, bogus: 1}`
validation fails (additional property `bogus`), yet the body observed
afterwards differs from the input: the coercion of `priority` from the
string "5" to the number 5 was already committed in place — the gate passes
`req.body` itself to the AJV checker, not a working copy. -/
theorem claim_C2_counterexample :
    ((runGate (getSchemaValidator "todo" "strict")
        [("task", JsonVal.str "x"), ("priority", JsonVal.str "5"),
         ("assigned_to", JsonVal.str "a"), ("is_complete", JsonVal.bool false),
         ("bogus", JsonVal.num 1)]).2).isSome = true ∧
    (runGate (getSchemaValidator "todo" "strict")
        [("task", JsonVal.str "x"), ("priority", JsonVal.str "5"),
         ("assigned_to", JsonVal.str "a"), ("is_complete", JsonVal.bool false),
         ("bogus", JsonVal.num 1)]).1
      ≠ [("task", JsonVal.str "x"), ("priority", JsonVal.str "5"),
         ("assigned_to", JsonVal.str "a"), ("is_complete", JsonVal.bool false),
         ("bogus", JsonVal.num 1)] := by
  refine ⟨?_, ?_⟩ <;> decide

/-- C2 amended: the gate applies type coercions directly to the request body
while checking, and the body downstream (on success and on failure alike) is
exactly the input body with every declared, coercible field replaced by its
coerced value — no working copy is used and failed validations leave the
already-performed coercions visible. -/
theorem claim_C2_amended_in_place_coercion (mode : String) (body : Body) :
    (runGate (getSchemaValidator "todo" mode) body).1
      = body.map (coerceField todoSchema.properties) := by
  rw [getSchemaValidator_todo, runGate_check_fst, checkFields_fst,
    applyMode_properties]

/-- C3: the registry's stored todo schema descriptor is never mutated by any
sequence of compilations in any mix of modes ("partial" mode operates on a
deep copy), so a strict-mode compilation performed after the sequence still
compiles from the full descriptor and enforces the complete required-fields
list (witnessed by the strict validator rejecting the empty payload), while
a partial-mode compilation derives a copy with the required key deleted. -/
theorem claim_C3_registry_never_mutated (modes : List String) :
    registryAfter todoSchema modes = todoSchema ∧
    (compileStep (registryAfter todoSchema modes) "strict").2 = todoSchema ∧
    ((compileStep (registryAfter todoSchema modes) "strict").2).required
      = some ["task", "priority", "assigned_to", "is_complete"] ∧
    ((compileStep todoSchema "partial").2).required = none ∧
    ((runGate (Gate.check (compileStep (registryAfter todoSchema modes) "strict").2)
        []).2).isSome = true := by
  have hreg := registryAfter_eq todoSchema modes
  refine ⟨hreg, ?_, ?_, ?_, ?_⟩
  · rw [hreg, compileStep_snd, applyMode_strict]
  · rw [hreg, compileStep_snd, applyMode_strict]
    rfl
  · rw [compileStep_snd, applyMode_partial_required]
  · rw [hreg, compileStep_snd, applyMode_strict]
    decide

/-- C4: a payload missing a required field fails strict-mode validation with
a 422 whose message names the missing required property; partial-mode
validation never fails for missing required fields alone (a payload whose
fields are all declared and coercible passes), while the type checks still
apply in partial mode (a declared field of non-coercible type still yields a
422 naming the expected type). -/
theorem claim_C4_required_fields (body : Body) :
    (∀ f, f ∈ requiredList todoSchema → bodyHasKey body f = false →
      ∃ e : ErrObj, (runGate (getSchemaValidator "todo" "strict") body).2 = some e ∧
        e.status = some 422 ∧
        strMentions e.message ("data must have required property " ++ f)) ∧
    ((∀ p ∈ body, fieldOk todoSchema p = true) →
      (runGate (getSchemaValidator "todo" "partial") body).2 = none) ∧
    (∀ f v t, (f, v) ∈ body → lookupType todoSchema.properties f = some t →
      coerce t v = none →
      ∃ e : ErrObj, (runGate (getSchemaValidator "todo" "partial") body).2 = some e ∧
        e.status = some 422 ∧
        strMentions e.message ("data/" ++ f ++ " must be " ++ t.typeName)) := by
  refine ⟨?_, ?_, ?_⟩
  · intro f hreq habsent
    rw [getSchemaValidator_todo, applyMode_strict]
    have hmem3 := runValidate_mem_required
      (requiredErrors_mem hreq habsent)
    refine ⟨_, runGate_check_snd_of_mem hmem3, rfl, ?_⟩
    simpa using errorsText_mentions hmem3
  · intro hok
    rw [getSchemaValidator_todo]
    apply (runGate_check_none_iff _ _).mpr
    have h1 : requiredErrors (applyMode "partial" todoSchema) body = [] :=
      requiredErrors_none body (applyMode_partial_required todoSchema)
    have hok2 : ∀ p ∈ body, fieldOk (applyMode "partial" todoSchema) p = true := by
      intro p hp
      have hcur := hok p hp
      unfold fieldOk at hcur ⊢
      rw [applyMode_properties]
      exact hcur
    show requiredErrors _ body ++ (checkFields _ body).2 = []
    rw [h1, checkFields_ok hok2]
    rfl
  · intro f v t hmem hdecl hc
    rw [getSchemaValidator_todo]
    have hmem3 := runValidate_mem_check
      (@checkFields_mem_wrongType (applyMode "partial" todoSchema) body f v t hmem
        (by rw [applyMode_properties]; exact hdecl) hc)
    refine ⟨_, runGate_check_snd_of_mem hmem3, rfl, ?_⟩
    simpa using errorsText_mentions hmem3

/-- Witness for C4 at the payload `{priority: "5"}`: strict mode rejects it
naming the missing required property `task`, while partial mode accepts it
(the numeric string is coercible). -/
theorem claim_C4_required_fields_witness :
    (∃ e : ErrObj,
      (runGate (getSchemaValidator "todo" "strict")
        [("priority", JsonVal.str "5")]).2 = some e ∧
      e.status = some 422 ∧
      strMentions e.message ("data must have required property " ++ "task")) ∧
    (runGate (getSchemaValidator "todo" "partial")
      [("priority", JsonVal.str "5")]).2 = none := by
  have h := claim_C4_required_fields [("priority", JsonVal.str "5")]
  exact ⟨h.1 "task" (by decide) (by decide), h.2.1 (by decide)⟩

/-- C5: an error carrying no explicit status is rendered with status 500;
for a JSON-accepting client the body is exactly the envelope
`{ error: { message, stack? } }`, the stack field present when the Express
app env is "development" and absent otherwise. -/
theorem claim_C5_default_500_envelope (err : ErrObj) (acceptsJson : Bool)
    (appEnv : String) (env : Env) (method originalUrl : String)
    (h : err.status = none) :
    (centralErrorHandler err acceptsJson appEnv env method originalUrl).status
      = 500 ∧
    (acceptsJson = true → appEnv = "development" →
      (centralErrorHandler err acceptsJson appEnv env method originalUrl).body
        = RespBody.envelope err.message (some err.stack)) ∧
    (acceptsJson = true → appEnv ≠ "development" →
      (centralErrorHandler err acceptsJson appEnv env method originalUrl).body
        = RespBody.envelope err.message none) := by
  refine ⟨?_, ?_, ?_⟩
  · rw [centralErrorHandler_status, h]
    rfl
  · rintro rfl hdev
    rw [centralErrorHandler_json_body, if_pos (by simp [hdev])]
  · rintro rfl hdev
    rw [centralErrorHandler_json_body, if_neg (by simpa using hdev)]

/-- Witness for C5: a status-less error "boom" in a production app env is
rendered 500 with the stack-less JSON envelope. -/
theorem claim_C5_default_500_envelope_witness :
    (centralErrorHandler
      { status := none, message := "boom", stack := StackTrace.str "tr" }
      true "production" testEnv "GET" "/nope").status = 500 ∧
    (centralErrorHandler
      { status := none, message := "boom", stack := StackTrace.str "tr" }
      true "production" testEnv "GET" "/nope").body
      = RespBody.envelope "boom" none := by
  have h := claim_C5_default_500_envelope
    { status := none, message := "boom", stack := StackTrace.str "tr" }
    true "production" testEnv "GET" "/nope" rfl
  exact ⟨h.1, h.2.2 rfl (by decide)⟩

/-- C10: the stub authentication gate attaches the fixed placeholder
identity {id: "placeholder-user-id", username: "stub_user", roles: ["user"]}
to every request and always passes control on; it never answers a request
itself, in particular it produces no 401/403 response. -/
theorem claim_C10_auth_stub (req : Request) :
    authenticate_user req
      = ({ req with user := some stubIdentity }, MwOutcome.next) ∧
    stubIdentity
      = { id := "placeholder-user-id", username := "stub_user",
          roles := ["user"] } ∧
    ∀ resp : Response, (authenticate_user req).2 ≠ MwOutcome.respond resp :=
  ⟨rfl, rfl, fun _ h => MwOutcome.noConfusion h⟩

/-- C8: a request on an id-carrying route (get-by-id, update, delete) whose
identifier fails the ObjectId format check is answered 400 with the message
"Invalid ObjectId" and runs only the param-check stage — neither the body
validator nor the resource handler executes; conversely, the validator or
handler stage runs only when the identifier is well-formed. -/
theorem claim_C8_malformed_id_short_circuit (store : Store) (id : String)
    (body : Body) (aj : Bool) (appEnv : String) (env : Env) :
    (isValidObjectId id = false →
      (putTodoPipeline store id body aj appEnv env).1
          = { status := 400, body := RespBody.flatJson "error" "Invalid ObjectId" } ∧
      (putTodoPipeline store id body aj appEnv env).2.2 = [Stage.paramCheck] ∧
      (getTodoByIdPipeline store id aj appEnv env).1
          = { status := 400, body := RespBody.flatJson "error" "Invalid ObjectId" } ∧
      (getTodoByIdPipeline store id aj appEnv env).2 = [Stage.paramCheck] ∧
      (deleteTodoPipeline store id aj appEnv env).1
          = { status := 400, body := RespBody.flatJson "error" "Invalid ObjectId" } ∧
      (deleteTodoPipeline store id aj appEnv env).2.2 = [Stage.paramCheck]) ∧
    ((Stage.validator ∈ (putTodoPipeline store id body aj appEnv env).2.2 ∨
      Stage.handler ∈ (putTodoPipeline store id body aj appEnv env).2.2) →
      isValidObjectId id = true) ∧
    (Stage.handler ∈ (getTodoByIdPipeline store id aj appEnv env).2 →
      isValidObjectId id = true) ∧
    (Stage.handler ∈ (deleteTodoPipeline store id aj appEnv env).2.2 →
      isValidObjectId id = true) := by
  have hbool : ∀ b : Bool, b ≠ true → b = false := by
    intro b hb
    cases b
    · rfl
    · exact absurd rfl hb
  refine ⟨?_, ?_, ?_, ?_⟩
  · intro h
    rw [putPipeline_invalid h, getPipeline_invalid h, deletePipeline_invalid h]
    exact ⟨rfl, rfl, rfl, rfl, rfl, rfl⟩
  · intro hmem
    by_contra hne
    rw [putPipeline_invalid (hbool _ hne)] at hmem
    rcases hmem with hmem | hmem <;> simp at hmem
  · intro hmem
    by_contra hne
    rw [getPipeline_invalid (hbool _ hne)] at hmem
    simp at hmem
  · intro hmem
    by_contra hne
    rw [deletePipeline_invalid (hbool _ hne)] at hmem
    simp at hmem

/-- Witness for C8: the malformed identifier "zzz" on the update route is
answered 400 "Invalid ObjectId" after the param-check stage alone. -/
theorem claim_C8_malformed_id_short_circuit_witness :
    (putTodoPipeline [] "zzz" [] true "test" testEnv).1
        = { status := 400, body := RespBody.flatJson "error" "Invalid ObjectId" } ∧
    (putTodoPipeline [] "zzz" [] true "test" testEnv).2.2 = [Stage.paramCheck] ∧
    (getTodoByIdPipeline [] "zzz" true "test" testEnv).1
        = { status := 400, body := RespBody.flatJson "error" "Invalid ObjectId" } ∧
    (getTodoByIdPipeline [] "zzz" true "test" testEnv).2 = [Stage.paramCheck] ∧
    (deleteTodoPipeline [] "zzz" true "test" testEnv).1
        = { status := 400, body := RespBody.flatJson "error" "Invalid ObjectId" } ∧
    (deleteTodoPipeline [] "zzz" true "test" testEnv).2.2 = [Stage.paramCheck] :=
  (claim_C8_malformed_id_short_circuit [] "zzz" [] true "test" testEnv).1 (by decide)

/-- C7 counterexample: the claim that a gate-passing update answers 204 or
else 404 is false at the empty update body.  The empty body passes the
partial-mode gate (no required fields, nothing to check), the identifier is
well-formed and matches a stored document, yet the route answers 500: the
handler calls `updateOne({_id}, {$set: {}})` and MongoDB rejects the empty
`$set` document with a FailedToParse error, which the route's catch hands to
the central error handler as a plain status-less error. -/
theorem claim_C7_counterexample :
    (runGate (getSchemaValidator "todo" "partial") ([] : Body)).2 = none ∧
    (putTodoPipeline [⟨"507f1f77bcf86cd799439011", [("task", JsonVal.str "t")]⟩]
      "507f1f77bcf86cd799439011" [] true "test" testEnv).1.status = 500 ∧
    (putTodoPipeline [⟨"507f1f77bcf86cd799439011", [("task", JsonVal.str "t")]⟩]
      "507f1f77bcf86cd799439011" [] true "test" testEnv).1.body
      = RespBody.envelope "FailedToParse: $set is empty" none := by
  refine ⟨?_, ?_, ?_⟩ <;> decide

/-- C7 amended: an update request with a castable identifier and a
*non-empty* body passing the partial-mode gate answers 204 exactly when the
store reports at least one field changed (`modifiedCount > 0`); otherwise it
answers 404 with exactly the message "Todo not found or not modified" — in
particular an update that matches a document but changes no field value
yields the 404.  (An empty update body instead makes MongoDB reject the
empty `$set` document and surfaces as a 500 through the central handler.) -/
theorem claim_C7_update_204_iff_modified (store : Store) (id : String)
    (body : Body) (appEnv : String) (env : Env) (oid : String)
    (hcast : castObjectId id = some oid)
    (hval : (runGate (getSchemaValidator "todo" "partial") body).2 = none)
    (hne : body ≠ []) :
    ((putTodoPipeline store id body true appEnv env).1.status = 204 ↔
      (applySet store oid
        (runGate (getSchemaValidator "todo" "partial") body).1).2 = true) ∧
    ((applySet store oid
        (runGate (getSchemaValidator "todo" "partial") body).1).2 = false →
      (putTodoPipeline store id body true appEnv env).1.status = 404 ∧
      ∃ stk, (putTodoPipeline store id body true appEnv env).1.body
        = RespBody.envelope "Todo not found or not modified" stk) := by
  have hrg : runGate (getSchemaValidator "todo" "partial") body
      = ((runGate (getSchemaValidator "todo" "partial") body).1,
         (runGate (getSchemaValidator "todo" "partial") body).2) := rfl
  rw [hval] at hrg
  have hb2 : (runGate (getSchemaValidator "todo" "partial") body).1 ≠ [] := by
    rw [getSchemaValidator_todo, runGate_check_fst, checkFields_fst]
    intro hnil
    cases body with
    | nil => exact hne rfl
    | cons p rest => cases hnil
  have hupd : updateOne store oid
      (runGate (getSchemaValidator "todo" "partial") body).1
      = some (applySet store oid
          (runGate (getSchemaValidator "todo" "partial") body).1) := by
    unfold updateOne
    rw [if_neg hb2]
  have hred := @putPipeline_gate_ok store id body true appEnv env oid
    ((runGate (getSchemaValidator "todo" "partial") body).1)
    (applySet store oid ((runGate (getSchemaValidator "todo" "partial") body).1))
    hcast hrg hupd
  cases hm : (applySet store oid
      (runGate (getSchemaValidator "todo" "partial") body).1).2 with
  | true =>
    rw [hm, if_pos rfl] at hred
    rw [hred]
    exact ⟨by simp [sendStatus], fun hfalse => by cases hfalse⟩
  | false =>
    rw [hm, if_neg (by simp)] at hred
    rw [hred]
    refine ⟨?_, fun _ => ⟨?_, ?_⟩⟩
    · constructor
      · intro h204
        rw [centralErrorHandler_status] at h204
        cases h204
      · intro htrue
        cases htrue
    · rw [centralErrorHandler_status]
      rfl
    · exact ⟨_, centralErrorHandler_json_body
        (createError 404 "Todo not found or not modified") appEnv env
        "PUT" ("/v1/todo/" ++ id)⟩

/-- Witness for C7 (amended): updating the stored document with its current
`is_complete` value (a non-empty update) matches but modifies nothing, so
the route answers 404 "Todo not found or not modified" and not 204. -/
theorem claim_C7_update_204_iff_modified_witness :
    ((putTodoPipeline
        [⟨"507f1f77bcf86cd799439011",
          [("task", JsonVal.str "t"), ("is_complete", JsonVal.bool true)]⟩]
        "507f1f77bcf86cd799439011" [("is_complete", JsonVal.bool true)]
        true "test" testEnv).1.status = 404 ∧
      ∃ stk, (putTodoPipeline
        [⟨"507f1f77bcf86cd799439011",
          [("task", JsonVal.str "t"), ("is_complete", JsonVal.bool true)]⟩]
        "507f1f77bcf86cd799439011" [("is_complete", JsonVal.bool true)]
        true "test" testEnv).1.body
        = RespBody.envelope "Todo not found or not modified" stk) :=
  (claim_C7_update_204_iff_modified
    [⟨"507f1f77bcf86cd799439011",
      [("task", JsonVal.str "t"), ("is_complete", JsonVal.bool true)]⟩]
    "507f1f77bcf86cd799439011" [("is_complete", JsonVal.bool true)]
    "test" testEnv "507f1f77bcf86cd799439011"
    (by decide) (by decide) (by decide)).2 (by decide)

/-- C9: for a valid, well-typed todo payload, creating a document and then
fetching it by the identifier returned from the create yields exactly the
document formed of the input fields plus the server-assigned identifier and
the server-assigned creation timestamp: the gate leaves the body unchanged,
a valid payload can never carry `date_created` itself (the closed property
set rejects it), the POST route answers 201 with that document, and the
subsequent fetch finds it.  `oid` is the identifier MongoDB assigns, unique
in the collection (`hfresh`). -/
theorem claim_C9_create_fetch_roundtrip (store : Store) (body : Body)
    (now : Nat) (oid : String)
    (hval : (runGate (getSchemaValidator "todo" "strict") body).2 = none)
    (htyped : ∀ p ∈ body, wellTypedField p = true)
    (hfresh : findOne store oid = none) :
    (runGate (getSchemaValidator "todo" "strict") body).1 = body ∧
    bodyHasKey body "date_created" = false ∧
    (createTodo store body now oid).2
      = ⟨oid, body ++ [("date_created", JsonVal.date now)]⟩ ∧
    findOne (createTodo store body now oid).1 oid
      = some (createTodo store body now oid).2 ∧
    (∀ aj appEnv env,
      (postTodoPipeline store body now oid aj appEnv env).1
        = { status := 201,
            body := RespBody.jsonDoc oid
              (body ++ [("date_created", JsonVal.date now)]) }) := by
  have hbody := gate_wellTyped_body "strict" htyped
  have hnk := gate_success_no_date_created hval
  have hset := setField_append (JsonVal.date now) hnk
  have hcreate : (createTodo store body now oid).2
      = ⟨oid, body ++ [("date_created", JsonVal.date now)]⟩ := by
    unfold createTodo
    rw [hset]
  refine ⟨hbody, hnk, hcreate, ?_, ?_⟩
  · have hfind := findOne_append_fresh
      (⟨oid, setField body "date_created" (JsonVal.date now)⟩ : TodoDoc)
      hfresh rfl
    unfold createTodo
    exact hfind
  · intro aj appEnv env
    have hrg : runGate (getSchemaValidator "todo" "strict") body
        = ((runGate (getSchemaValidator "todo" "strict") body).1,
           (runGate (getSchemaValidator "todo" "strict") body).2) := rfl
    rw [hval, hbody] at hrg
    simp only [postTodoPipeline, authenticate_user, hrg, createTodo, hset]

/-- Witness for C9: creating `{task: "x", priority: 3, assigned_to: "a",
is_complete: false}` into an empty store and fetching it back. -/
theorem claim_C9_create_fetch_roundtrip_witness :
    (runGate (getSchemaValidator "todo" "strict")
      [("task", JsonVal.str "x"), ("priority", JsonVal.num 3),
       ("assigned_to", JsonVal.str "a"), ("is_complete", JsonVal.bool false)]).1
      = [("task", JsonVal.str "x"), ("priority", JsonVal.num 3),
         ("assigned_to", JsonVal.str "a"), ("is_complete", JsonVal.bool false)] ∧
    bodyHasKey
      [("task", JsonVal.str "x"), ("priority", JsonVal.num 3),
       ("assigned_to", JsonVal.str "a"), ("is_complete", JsonVal.bool false)]
      "date_created" = false ∧
    (createTodo []
      [("task", JsonVal.str "x"), ("priority", JsonVal.num 3),
       ("assigned_to", JsonVal.str "a"), ("is_complete", JsonVal.bool false)]
      7 "507f1f77bcf86cd799439011").2
      = ⟨"507f1f77bcf86cd799439011",
         [("task", JsonVal.str "x"), ("priority", JsonVal.num 3),
          ("assigned_to", JsonVal.str "a"), ("is_complete", JsonVal.bool false)]
         ++ [("date_created", JsonVal.date 7)]⟩ ∧
    findOne (createTodo []
      [("task", JsonVal.str "x"), ("priority", JsonVal.num 3),
       ("assigned_to", JsonVal.str "a"), ("is_complete", JsonVal.bool false)]
      7 "507f1f77bcf86cd799439011").1 "507f1f77bcf86cd799439011"
      = some (createTodo []
        [("task", JsonVal.str "x"), ("priority", JsonVal.num 3),
         ("assigned_to", JsonVal.str "a"), ("is_complete", JsonVal.bool false)]
        7 "507f1f77bcf86cd799439011").2 ∧
    (∀ aj appEnv env,
      (postTodoPipeline []
        [("task", JsonVal.str "x"), ("priority", JsonVal.num 3),
         ("assigned_to", JsonVal.str "a"), ("is_complete", JsonVal.bool false)]
        7 "507f1f77bcf86cd799439011" aj appEnv env).1
        = { status := 201,
            body := RespBody.jsonDoc "507f1f77bcf86cd799439011"
              ([("task", JsonVal.str "x"), ("priority", JsonVal.num 3),
                ("assigned_to", JsonVal.str "a"), ("is_complete", JsonVal.bool false)]
               ++ [("date_created", JsonVal.date 7)]) }) :=
  claim_C9_create_fetch_roundtrip []
    [("task", JsonVal.str "x"), ("priority", JsonVal.num 3),
     ("assigned_to", JsonVal.str "a"), ("is_complete", JsonVal.bool false)]
    7 "507f1f77bcf86cd799439011" (by decide) (by decide) (by decide)

/-- C6 counterexample: not every failing request is rendered through the
central error handler's canonical envelope.  A PUT with the malformed
identifier "zzz" is answered by the param gate itself as a flat
`{error: "Invalid ObjectId"}` (not the envelope shape), and a health check
against an unreachable store is answered by a bare `res.sendStatus(503)` —
both bypass the Error Normalizer even for a JSON-accepting client. -/
theorem claim_C6_counterexample :
    (putTodoPipeline [] "zzz" [] true "test" testEnv).1
      = { status := 400, body := RespBody.flatJson "error" "Invalid ObjectId" } ∧
    (putTodoPipeline [] "zzz" [] true "test" testEnv).1.body.isEnvelope = false ∧
    healthCheckRoute false
      = { status := 503, body := RespBody.statusText "Service Unavailable" } ∧
    (healthCheckRoute false).body.isEnvelope = false := by
  refine ⟨?_, ?_, ?_, ?_⟩ <;> decide

/-- C6 amended: every failure produced by a todo resource handler or by the
validation gate is funneled into the central error handler and rendered in
the canonical envelope (for a JSON-accepting client, a todo-route response
is either the route's success status or an envelope body), but two paths
answer ad hoc without the normalizer: the malformed-ObjectId param gate
responds 400 with the flat `{error: "Invalid ObjectId"}` shape, and the
health check responds with a bare 503 status. -/
theorem claim_C6_amended_funneling (store : Store) (id : String) (body : Body)
    (now : Nat) (newOid : String) (appEnv : String) (env : Env) :
    (isValidObjectId id = true →
      ((putTodoPipeline store id body true appEnv env).1.status = 204 ∨
        (putTodoPipeline store id body true appEnv env).1.body.isEnvelope = true) ∧
      ((getTodoByIdPipeline store id true appEnv env).1.status = 200 ∨
        (getTodoByIdPipeline store id true appEnv env).1.body.isEnvelope = true) ∧
      ((deleteTodoPipeline store id true appEnv env).1.status = 204 ∨
        (deleteTodoPipeline store id true appEnv env).1.body.isEnvelope = true)) ∧
    ((postTodoPipeline store body now newOid true appEnv env).1.status = 201 ∨
      (postTodoPipeline store body now newOid true appEnv env).1.body.isEnvelope
        = true) ∧
    (isValidObjectId id = false →
      (putTodoPipeline store id body true appEnv env).1
        = { status := 400, body := RespBody.flatJson "error" "Invalid ObjectId" }) ∧
    healthCheckRoute false = sendStatus 503 := by
  refine ⟨?_, ?_, ?_, rfl⟩
  · intro hvid
    have hparam : validateObjectIdParamHandler id = MwOutcome.next := by
      simp [validateObjectIdParamHandler, hvid]
    refine ⟨?_, ?_, ?_⟩
    · rcases hrg : runGate (getSchemaValidator "todo" "partial") body with ⟨b2, oerr⟩
      cases oerr with
      | some e =>
        right
        have hred : putTodoPipeline store id body true appEnv env
            = (centralErrorHandler e true appEnv env "PUT" ("/v1/todo/" ++ id),
               store, [Stage.paramCheck, Stage.auth, Stage.validator]) := by
          simp only [putTodoPipeline, hparam, authenticate_user, hrg]
        rw [hred]
        exact centralErrorHandler_json_isEnvelope e appEnv env "PUT" ("/v1/todo/" ++ id)
      | none =>
        cases hco : castObjectId id with
        | none =>
          right
          have hred : putTodoPipeline store id body true appEnv env
              = (centralErrorHandler bsonCastError true appEnv env "PUT"
                   ("/v1/todo/" ++ id),
                 store, [Stage.paramCheck, Stage.auth, Stage.validator, Stage.handler]) := by
            simp only [putTodoPipeline, hparam, authenticate_user, hrg, hco]
          rw [hred]
          exact centralErrorHandler_json_isEnvelope bsonCastError appEnv env "PUT" ("/v1/todo/" ++ id)
        | some oid =>
          cases hupd : updateOne store oid b2 with
          | none =>
            right
            have hred := @putPipeline_empty_set store id body true appEnv env
              oid b2 hco hrg hupd
            rw [hred]
            exact centralErrorHandler_json_isEnvelope emptySetError appEnv env
              "PUT" ("/v1/todo/" ++ id)
          | some upd =>
            have hred := @putPipeline_gate_ok store id body true appEnv env
              oid b2 upd hco hrg hupd
            cases hm : upd.2 with
            | true =>
              left
              rw [hm, if_pos rfl] at hred
              rw [hred]
              rfl
            | false =>
              right
              rw [hm, if_neg (by simp)] at hred
              rw [hred]
              exact centralErrorHandler_json_isEnvelope (createError 404 "Todo not found or not modified") appEnv env "PUT" ("/v1/todo/" ++ id)
    · cases hco : castObjectId id with
      | none =>
        right
        have hred : getTodoByIdPipeline store id true appEnv env
            = (centralErrorHandler bsonCastError true appEnv env "GET"
                 ("/v1/todo/" ++ id),
               [Stage.paramCheck, Stage.auth, Stage.handler]) := by
          simp only [getTodoByIdPipeline, hparam, hco]
        rw [hred]
        exact centralErrorHandler_json_isEnvelope bsonCastError appEnv env "GET" ("/v1/todo/" ++ id)
      | some oid =>
        cases hfo : findOne store oid with
        | none =>
          right
          have hred : getTodoByIdPipeline store id true appEnv env
              = (centralErrorHandler (createError 404 "Todo not found") true
                   appEnv env "GET" ("/v1/todo/" ++ id),
                 [Stage.paramCheck, Stage.auth, Stage.handler]) := by
            simp only [getTodoByIdPipeline, hparam, hco, hfo]
          rw [hred]
          exact centralErrorHandler_json_isEnvelope (createError 404 "Todo not found") appEnv env "GET" ("/v1/todo/" ++ id)
        | some d =>
          left
          have hred : getTodoByIdPipeline store id true appEnv env
              = ({ status := 200, body := RespBody.jsonDoc d.oid d.fields },
                 [Stage.paramCheck, Stage.auth, Stage.handler]) := by
            simp only [getTodoByIdPipeline, hparam, hco, hfo]
          rw [hred]
    · cases hco : castObjectId id with
      | none =>
        right
        have hred : deleteTodoPipeline store id true appEnv env
            = (centralErrorHandler bsonCastError true appEnv env "DELETE"
                 ("/v1/todo/" ++ id),
               store, [Stage.paramCheck, Stage.auth, Stage.handler]) := by
          simp only [deleteTodoPipeline, hparam, hco]
        rw [hred]
        exact centralErrorHandler_json_isEnvelope bsonCastError appEnv env "DELETE" ("/v1/todo/" ++ id)
      | some oid =>
        cases hdel : (deleteOne store oid).2 with
        | true =>
          left
          have hred : deleteTodoPipeline store id true appEnv env
              = (sendStatus 204, (deleteOne store oid).1,
                 [Stage.paramCheck, Stage.auth, Stage.handler]) := by
            simp only [deleteTodoPipeline, hparam, hco, hdel, if_true]
          rw [hred]
          rfl
        | false =>
          right
          have hred : deleteTodoPipeline store id true appEnv env
              = (centralErrorHandler (createError 404 "Todo not found") true
                   appEnv env "DELETE" ("/v1/todo/" ++ id),
                 (deleteOne store oid).1,
                 [Stage.paramCheck, Stage.auth, Stage.handler]) := by
            simp only [deleteTodoPipeline, hparam, hco, hdel]
            rw [if_neg (by simp)]
          rw [hred]
          exact centralErrorHandler_json_isEnvelope (createError 404 "Todo not found") appEnv env "DELETE" ("/v1/todo/" ++ id)
  · rcases hrg : runGate (getSchemaValidator "todo" "strict") body with ⟨b2, oerr⟩
    cases oerr with
    | some e =>
      right
      have hred : postTodoPipeline store body now newOid true appEnv env
          = (centralErrorHandler e true appEnv env "POST" "/v1/todo",
             store, [Stage.auth, Stage.validator]) := by
        simp only [postTodoPipeline, authenticate_user, hrg]
      rw [hred]
      exact centralErrorHandler_json_isEnvelope e appEnv env "POST" "/v1/todo"
    | none =>
      left
      have hred : postTodoPipeline store body now newOid true appEnv env
          = ({ status := 201,
               body := RespBody.jsonDoc (createTodo store b2 now newOid).2.oid
                 (createTodo store b2 now newOid).2.fields },
             (createTodo store b2 now newOid).1,
             [Stage.auth, Stage.validator, Stage.handler]) := by
        simp only [postTodoPipeline, authenticate_user, hrg]
      rw [hred]
  · intro h
    rw [putPipeline_invalid h]

/-- Witness for C6 (amended): a well-formed identifier missing from an empty
store makes the update route fail through the normalizer (status not 204, so
the body is the canonical envelope). -/
theorem claim_C6_amended_funneling_witness :
    ((putTodoPipeline [] "507f1f77bcf86cd799439011" [] true "test" testEnv).1.status
        = 204 ∨
      (putTodoPipeline [] "507f1f77bcf86cd799439011" [] true "test"
        testEnv).1.body.isEnvelope = true) ∧
    ((getTodoByIdPipeline [] "507f1f77bcf86cd799439011" true "test" testEnv).1.status
        = 200 ∨
      (getTodoByIdPipeline [] "507f1f77bcf86cd799439011" true "test"
        testEnv).1.body.isEnvelope = true) ∧
    ((deleteTodoPipeline [] "507f1f77bcf86cd799439011" true "test" testEnv).1.status
        = 204 ∨
      (deleteTodoPipeline [] "507f1f77bcf86cd799439011" true "test"
        testEnv).1.body.isEnvelope = true) :=
  (claim_C6_amended_funneling [] "507f1f77bcf86cd799439011" [] 0 "x" "test"
    testEnv).1 (by decide)

end ExpressMongoApi
